import Mathlib

/-!
Verification of the ptyme terminal-to-pseudoterminal bridge
(src/src/main.rs) against its natural-language specification.

The Rust program is shallowly embedded: byte streams are lists of
naturals, fallible system calls are oracle results threaded through an
environment record, and externally visible side effects (terminal
attribute writes, PTY allocation steps, relayed bytes) are recorded in
traces or output lists.
-/

namespace Ptyme

/-- An error value carried by a failing call, in the style of the two
error families the program meets: errno-style nix errors and std I/O
errors. Both are boxed into one dynamic error type by the program. -/
inductive Err where
  | nix (code : Nat)
  | io (code : Nat)
deriving DecidableEq

deriving instance DecidableEq for Except

/-! ## Buffered reader and writer model

A `Handle` embeds a `BufRead` source as the list of successive
`fill_buf` results: each entry is either the chunk of bytes that the
call buffers, or an injected I/O error. An exhausted list means
`fill_buf` keeps returning an empty (zero-byte, end-of-file) buffer.
A `Sink` embeds a `Write` destination with an internal buffer
(`pending`) and the externally visible flushed output (`out`). -/

structure Handle where
  chunks : List (Except Err (List Nat))
deriving DecidableEq

/-- Embeds `BufRead::fill_buf`: returns the currently buffered bytes
(the head chunk), or an empty buffer at end of input. -/
def fill_buf (h : Handle) : Except Err (List Nat) :=
  match h.chunks with
  | [] => .ok []
  | c :: _ => c

/-- Embeds `BufRead::consume n`: drops `n` bytes from the buffered
chunk; consuming the whole chunk makes the next `fill_buf` perform a
fresh underlying read (the next entry of the list). -/
def consume (h : Handle) (n : Nat) : Handle :=
  match h.chunks with
  | .ok l :: cs => if n < l.length then ⟨.ok (l.drop n) :: cs⟩ else ⟨cs⟩
  | _ => h

structure Sink where
  pending : List Nat
  out : List Nat
deriving DecidableEq

/-- Embeds `Write::flush`: moves the internal buffer to the visible
output. -/
def flushSink (s : Sink) : Sink := ⟨[], s.out ++ s.pending⟩

/-- Embeds `Write::write_all buf`: repeatedly calls the underlying
`write` until every byte of `buf` is accepted. The schedule `caps`
says how many bytes the destination accepts on each raw `write` call
(the environment's choice); a call that accepts zero bytes, or an
exhausted schedule, is the `WriteZero` error that `write_all` raises.
On success it returns the destination buffer with `buf` appended. -/
def write_all (caps : List Nat) (written buf : List Nat) :
    Except Err (List Nat) :=
  match buf with
  | [] => .ok written
  | _ :: _ =>
    match caps with
    | [] => .error (.io 0)
    | c :: caps2 =>
      if c = 0 then .error (.io 0)
      else write_all caps2 (written ++ buf.take c) (buf.drop c)

/-- Embeds `write_buffer_to(rdr, f)` from src/src/main.rs:
`fill_buf`, then `write_all` of the buffered bytes, then `flush`,
then `consume` of exactly the number of bytes that were buffered.
The `caps` schedule parametrises how the destination accepts the raw
writes inside `write_all`. -/
def write_buffer_to (rdr : Handle) (f : Sink) (caps : List Nat) :
    Except Err (Handle × Sink) :=
  match fill_buf rdr with
  | .error e => .error e
  | .ok buf =>
    match write_all caps f.pending buf with
    | .error e => .error e
    | .ok pending2 => .ok (consume rdr buf.length, ⟨[], f.out ++ pending2⟩)

/-- Length of the currently buffered chunk (zero on a pending error);
used to build a write-acceptance schedule under which the destination
accepts the whole buffer. -/
def fillLen (h : Handle) : Nat :=
  match fill_buf h with
  | .ok l => l.length
  | .error _ => 0

/-! ## The proxy event loop -/

/-- The fixed identifier registered for standard input
(`const STDIN: Token = Token(0)`). -/
def STDIN : Nat := 0

/-- The fixed identifier registered for the PTY master
(`const PTY_MASTER: Token = Token(1)`). -/
def PTY_MASTER : Nat := 1

/-- One readiness notification: the identifier it carries and whether
it also signals that the read side has closed
(`event.token()`, `event.is_read_closed()`). -/
structure Event where
  token : Nat
  readClosed : Bool
deriving DecidableEq

/-- The mutable state of the proxy loop: the locked standard-input
reader, the buffered reader over the duplicated PTY master, and the
two write destinations (the PTY master file and the locked standard
output). -/
structure LoopSt where
  stdin_hdl : Handle
  fpty_master : Handle
  pty_out : Sink
  stdout_hdl : Sink
deriving DecidableEq

/-- Outcome of servicing one event inside the `for` loop. -/
inductive StepResult where
  | terminated
  | cont (s : LoopSt)
  | ioError (e : Err)
  | panicked
deriving DecidableEq

/-- Embeds the body of the `for event in events.iter()` loop: an event
whose read side has closed returns `Ok(())` at once; otherwise the
token is matched against the two registered identifiers and the
corresponding relay runs; any other token hits the defensive abort.
The relay write side accepts the full buffer in one raw write (on
success `write_all` output does not depend on the schedule; loop-level
I/O failures are injected through the reader oracles). -/
def processEvent (s : LoopSt) (e : Event) : StepResult :=
  if e.readClosed then .terminated
  else if e.token = STDIN then
    match write_buffer_to s.stdin_hdl s.pty_out [fillLen s.stdin_hdl] with
    | .error er => .ioError er
    | .ok (h2, w2) => .cont { s with stdin_hdl := h2, pty_out := w2 }
  else if e.token = PTY_MASTER then
    match write_buffer_to s.fpty_master s.stdout_hdl [fillLen s.fpty_master] with
    | .error er => .ioError er
    | .ok (h2, w2) => .cont { s with fpty_master := h2, stdout_hdl := w2 }
  else .panicked

/-- Result of one pass over a batch of ready events. `done` carries
the loop state at the moment `proxy_term` returns `Ok(())`; `next`
means the batch was exhausted and the loop blocks in `poll` again. -/
inductive BatchResult where
  | done (s : LoopSt)
  | ioError (e : Err)
  | panicked
  | next (s : LoopSt)
deriving DecidableEq

/-- Embeds the `for` loop over one batch of events delivered by a
single `poll.poll` call. -/
def processBatch (s : LoopSt) : List Event → BatchResult
  | [] => .next s
  | e :: es =>
    match processEvent s e with
    | .terminated => .done s
    | .cont s2 => processBatch s2 es
    | .ioError er => .ioError er
    | .panicked => .panicked

/-- Overall outcome of the proxy loop on a script of poll results.
`pending` means the scripted events ran out while the loop is still
blocked in `poll`. -/
inductive LoopResult where
  | ok (s : LoopSt)
  | ioError (e : Err)
  | panicked
  | pending (s : LoopSt)
deriving DecidableEq

/-- Embeds the outer `loop`: each scripted batch is one return of the
blocking `poll.poll(&mut events, None)` call. -/
def runLoop (s : LoopSt) : List (List Event) → LoopResult
  | [] => .pending s
  | evs :: rest =>
    match processBatch s evs with
    | .done s2 => .ok s2
    | .ioError er => .ioError er
    | .panicked => .panicked
    | .next s2 => runLoop s2 rest

/-! ## proxy_term wiring

Before the loop, `proxy_term(stdin: RawFd, pty_master: PtyMaster)`
registers its `stdin` parameter and a `dup` of the master fd with the
poll registry, then shadows the parameter with the process-global
`io::stdin()` handle (file descriptor 0) and locks that for the loop
reads. The wiring record captures which descriptors end up where. -/

/-- The file descriptor of the process-global `io::stdin()` handle. -/
def GLOBAL_STDIN_FD : Nat := 0

structure ProxyWiring where
  registered : List (Nat × Nat)
  stdinReadFd : Nat
  ptyDupFd : Nat
deriving DecidableEq

/-- Embeds the setup of `proxy_term`: the registration table built
from its `stdin` parameter and the duplicated master descriptor, and
the descriptor actually read on a standard-input event, which is the
process-global standard input, not the parameter. -/
def proxy_term_wiring (stdinParam ptyDup : Nat) : ProxyWiring :=
  { registered := [(stdinParam, STDIN), (ptyDup, PTY_MASTER)],
    stdinReadFd := GLOBAL_STDIN_FD,
    ptyDupFd := ptyDup }

/-! ## Terminal attributes -/

/-- Embeds `termios::Termios`: the four flag words of a terminal
attribute snapshot (control characters and speeds elided; equality of
the flag words stands for equality of snapshots). -/
structure Termios where
  iflag : Nat
  oflag : Nat
  cflag : Nat
  lflag : Nat
deriving DecidableEq

/-- Embeds `termios::cfmakeraw`: derives the raw configuration from a
snapshot by clearing input, output and local processing flags (exact
bit constants abstracted; what matters here is that it is a pure
derivation of a new value). -/
def cfmakeraw (t : Termios) : Termios :=
  { iflag := 0, oflag := 0, cflag := t.cflag, lflag := 0 }

/-- Embeds the kernel-side terminal attribute store written by
`tcsetattr(fd, TCSANOW, t)`: the attributes are replaced by `t`. -/
def tcsetattr_state (t _current : Termios) : Termios := t

/-- Embeds `tcgetattr(fd)` reading the kernel-side attribute store. -/
def tcgetattr_state (current : Termios) : Termios := current

/-- The restore operation of the program,
`termios::tcsetattr(stdin, SetArg::TCSANOW, &saved)`, acting on the
kernel attribute store. -/
def restore (s current : Termios) : Termios := tcsetattr_state s current

/-- A fresh capture of the terminal attributes, `tcgetattr`. -/
def capture (current : Termios) : Termios := tcgetattr_state current

/-! ## PTY allocation -/

/-- A PTY master / slave pair (struct PtyPair in src/src/main.rs). -/
structure PtyPair where
  master : Nat
  slave_name : String
deriving DecidableEq

/-- The four system calls `new_pty` makes, in program order. -/
inductive PtyStep where
  | openpt
  | grantpt
  | unlockpt
  | ptsname
deriving DecidableEq

/-- Oracle results for the four allocation system calls. -/
structure PtyEnv where
  openptRes : Except Err Nat
  grantptRes : Except Err Unit
  unlockptRes : Except Err Unit
  ptsnameRes : Except Err String
deriving DecidableEq

/-- Program order of the allocation steps. -/
def ptyStepOrder : List PtyStep := [.openpt, .grantpt, .unlockpt, .ptsname]

/-- Embeds `new_pty`: `posix_openpt`, then `grantpt`, then `unlockpt`,
then `ptsname`, each followed by the `?` operator, so the first
failure aborts the rest and its error is returned. The second
component records which calls were actually made. -/
def new_pty (env : PtyEnv) : Except Err PtyPair × List PtyStep :=
  match env.openptRes with
  | .error e => (.error e, [.openpt])
  | .ok master =>
    match env.grantptRes with
    | .error e => (.error e, [.openpt, .grantpt])
    | .ok _ =>
      match env.unlockptRes with
      | .error e => (.error e, [.openpt, .grantpt, .unlockpt])
      | .ok _ =>
        match env.ptsnameRes with
        | .error e => (.error e, ptyStepOrder)
        | .ok slave_name => (.ok ⟨master, slave_name⟩, ptyStepOrder)

/-- Number of allocation calls made before the sequence stops (all
four when the first three succeed). -/
def stepsRun (env : PtyEnv) : Nat :=
  match env.openptRes with
  | .error _ => 1
  | .ok _ =>
    match env.grantptRes with
    | .error _ => 2
    | .ok _ =>
      match env.unlockptRes with
      | .error _ => 3
      | .ok _ => 4

/-! ## main -/

/-- Oracle results for the calls `main` makes directly. -/
structure MainEnv where
  tcgetattrRes : Except Err Termios
  ptyEnv : PtyEnv
  rawSetRes : Except Err Unit
  proxyRes : Except Err Unit
  restoreRes : Except Err Unit
deriving DecidableEq

/-- Externally visible calls of `main`, in trace order. -/
inductive MainCall where
  | tcgetattrCall (fd : Nat)
  | tcsetattrCall (fd : Nat) (t : Termios)
  | printOpened (name : String)
  | newPtyCall
  | proxyCall (stdinFd : Nat) (masterFd : Nat)
deriving DecidableEq

/-- Embeds `term_set_raw(fd, termios)`: `cfmakeraw` mutates the passed
snapshot in place, then `tcsetattr(fd, TCSANOW, termios)` applies it.
Returns the mutated out-value of the `&mut` argument, the apply
result, and the attribute write it performs. -/
def term_set_raw (fd : Nat) (t : Termios) (applyRes : Except Err Unit) :
    Termios × Except Err Unit × List MainCall :=
  (cfmakeraw t, applyRes, [.tcsetattrCall fd (cfmakeraw t)])

/-- Embeds `main`: capture attributes, clone the snapshot, allocate a
PTY, print the slave path, set raw mode on the clone, run the proxy
loop, and reapply the saved snapshot. Every fallible call is followed
by the `?` operator, so an error returns from `main` at once with the
trace accumulated so far. -/
def main (env : MainEnv) : Except Err Unit × List MainCall :=
  let stdin : Nat := 0
  match env.tcgetattrRes with
  | .error e => (.error e, [.tcgetattrCall stdin])
  | .ok saved =>
    let termios := saved
    match (new_pty env.ptyEnv).1 with
    | .error e => (.error e, [.tcgetattrCall stdin, .newPtyCall])
    | .ok pair =>
      let r := term_set_raw stdin termios env.rawSetRes
      let pre : List MainCall :=
        [.tcgetattrCall stdin, .newPtyCall, .printOpened pair.slave_name]
          ++ r.2.2
      match r.2.1 with
      | .error e => (.error e, pre)
      | .ok _ =>
        match env.proxyRes with
        | .error e => (.error e, pre ++ [.proxyCall stdin pair.master])
        | .ok _ =>
          match env.restoreRes with
          | .error e =>
              (.error e,
               pre ++ [.proxyCall stdin pair.master,
                       .tcsetattrCall stdin saved])
          | .ok _ =>
              (.ok (),
               pre ++ [.proxyCall stdin pair.master,
                       .tcsetattrCall stdin saved])

/-- The attribute writes made after the proxy loop has run: the values
passed to `tcsetattr` by the restore code that follows the
`proxy_term` call in the trace. -/
def restoreWrites : List MainCall → List Termios
  | [] => []
  | .proxyCall _ _ :: rest =>
      rest.filterMap fun c =>
        match c with
        | .tcsetattrCall _ t => some t
        | _ => none
  | _ :: rest => restoreWrites rest

/-! ## Relay lemmas -/

theorem write_all_ok_eq (caps : List Nat) :
    ∀ written buf r, write_all caps written buf = .ok r →
      r = written ++ buf := by
  induction caps with
  | nil =>
    intro written buf r h
    cases buf with
    | nil =>
      simp only [write_all, Except.ok.injEq] at h
      subst h
      simp
    | cons b bs => simp [write_all] at h
  | cons c caps2 ih =>
    intro written buf r h
    cases buf with
    | nil =>
      simp only [write_all, Except.ok.injEq] at h
      subst h
      simp
    | cons b bs =>
      by_cases hc : c = 0
      · simp [write_all, hc] at h
      · simp only [write_all, if_neg hc] at h
        have h2 := ih _ _ _ h
        subst h2
        rw [List.append_assoc, List.take_append_drop]

theorem write_buffer_to_ok_spec (rdr : Handle) (f : Sink) (caps : List Nat)
    (rdr2 : Handle) (f2 : Sink)
    (h : write_buffer_to rdr f caps = .ok (rdr2, f2)) :
    ∃ buf, fill_buf rdr = .ok buf
      ∧ f2.out = f.out ++ f.pending ++ buf
      ∧ f2.pending = []
      ∧ rdr2 = consume rdr buf.length := by
  unfold write_buffer_to at h
  cases hf : fill_buf rdr with
  | error e => rw [hf] at h; exact absurd h (by simp)
  | ok buf =>
    rw [hf] at h
    dsimp only at h
    cases hw : write_all caps f.pending buf with
    | error e => rw [hw] at h; exact absurd h (by simp)
    | ok pending2 =>
      rw [hw] at h
      dsimp only at h
      have hp := write_all_ok_eq caps f.pending buf pending2 hw
      simp only [Except.ok.injEq, Prod.mk.injEq] at h
      obtain ⟨h1, h2⟩ := h
      subst h1
      subst h2
      subst hp
      exact ⟨buf, rfl, by simp, rfl, rfl⟩

/-- A write-acceptance schedule of a single raw write taking the whole
buffer makes write_all succeed with the buffer appended. -/
theorem write_all_full (p l : List Nat) :
    write_all [l.length] p l = .ok (p ++ l) := by
  cases l with
  | nil => simp [write_all]
  | cons b bs => simp [write_all]

theorem consume_head (c : List Nat) (m : List (Except Err (List Nat))) :
    consume ⟨.ok c :: m⟩ c.length = ⟨m⟩ := by
  simp [consume]

theorem stdin_event_step (m : List (Except Err (List Nat))) (c : List Nat)
    (b : Handle) (co : List Nat) (d : Sink) :
    processEvent ⟨⟨.ok c :: m⟩, b, ⟨[], co⟩, d⟩ ⟨STDIN, false⟩ =
      .cont ⟨⟨m⟩, b, ⟨[], co ++ c⟩, d⟩ := by
  simp [processEvent, write_buffer_to, fill_buf, fillLen, write_all_full,
    consume_head]

theorem pty_event_step (a : Handle) (m : List (Except Err (List Nat)))
    (c : List Nat) (p : Sink) (so : List Nat) :
    processEvent ⟨a, ⟨.ok c :: m⟩, p, ⟨[], so⟩⟩ ⟨PTY_MASTER, false⟩ =
      .cont ⟨a, ⟨m⟩, p, ⟨[], so ++ c⟩⟩ := by
  simp [processEvent, write_buffer_to, fill_buf, fillLen, write_all_full,
    consume_head, STDIN, PTY_MASTER]

theorem runLoop_stdin_relay (cs : List (List Nat)) :
    ∀ s : LoopSt, s.stdin_hdl = ⟨cs.map Except.ok⟩ →
      s.pty_out.pending = [] →
      runLoop s (cs.map fun _ => [⟨STDIN, false⟩]) =
        .pending { s with stdin_hdl := ⟨[]⟩,
                          pty_out := ⟨[], s.pty_out.out ++ cs.flatten⟩ } := by
  induction cs with
  | nil =>
    intro s h1 h2
    obtain ⟨a, b, ⟨cp, co⟩, d⟩ := s
    simp only at h1 h2
    subst h1
    subst h2
    simp [runLoop]
  | cons c cs2 ih =>
    intro s h1 h2
    obtain ⟨a, b, ⟨cp, co⟩, d⟩ := s
    simp only at h1 h2
    subst h1
    subst h2
    simp only [List.map_cons, runLoop, processBatch, stdin_event_step]
    rw [ih ⟨⟨cs2.map Except.ok⟩, b, ⟨[], co ++ c⟩, d⟩ rfl rfl]
    simp

theorem runLoop_pty_relay (cs : List (List Nat)) :
    ∀ s : LoopSt, s.fpty_master = ⟨cs.map Except.ok⟩ →
      s.stdout_hdl.pending = [] →
      runLoop s (cs.map fun _ => [⟨PTY_MASTER, false⟩]) =
        .pending { s with fpty_master := ⟨[]⟩,
                          stdout_hdl := ⟨[], s.stdout_hdl.out ++ cs.flatten⟩ } := by
  induction cs with
  | nil =>
    intro s h1 h2
    obtain ⟨a, b, p, ⟨dp, so⟩⟩ := s
    simp only at h1 h2
    subst h1
    subst h2
    simp [runLoop]
  | cons c cs2 ih =>
    intro s h1 h2
    obtain ⟨a, b, p, ⟨dp, so⟩⟩ := s
    simp only at h1 h2
    subst h1
    subst h2
    simp only [List.map_cons, runLoop, processBatch, pty_event_step]
    rw [ih ⟨a, ⟨cs2.map Except.ok⟩, p, ⟨[], so ++ c⟩⟩ rfl rfl]
    simp

theorem processBatch_next_append (ys : List Event) :
    ∀ (xs : List Event) (s s2 : LoopSt), processBatch s xs = .next s2 →
      processBatch s (xs ++ ys) = processBatch s2 ys := by
  intro xs
  induction xs with
  | nil =>
    intro s s2 h
    simp only [processBatch, BatchResult.next.injEq] at h
    subst h
    rfl
  | cons e es ih =>
    intro s s2 h
    cases hpe : processEvent s e with
    | terminated => simp [processBatch, hpe] at h
    | cont s3 =>
      simp only [processBatch, hpe] at h
      simp only [List.cons_append, processBatch, hpe]
      exact ih s3 s2 h
    | ioError er => simp [processBatch, hpe] at h
    | panicked => simp [processBatch, hpe] at h

/-- An empty loop state: exhausted readers, empty output buffers. -/
def loopStEmpty : LoopSt := ⟨⟨[]⟩, ⟨[]⟩, ⟨[], []⟩, ⟨[], []⟩⟩

/-- C2 counterexample: a ready standard-input event whose read yields
zero bytes does not make the loop return; the batch ends with the loop
going back to the blocking poll (`next`/`pending`), not with the
successful return (`done`/`ok`) the claim requires. -/
theorem zero_read_continue_cex :
    processBatch loopStEmpty [⟨STDIN, false⟩] = .next loopStEmpty
  ∧ processBatch loopStEmpty [⟨STDIN, false⟩] ≠ .done loopStEmpty
  ∧ runLoop loopStEmpty [[⟨STDIN, false⟩]] = .pending loopStEmpty := by
  decide

/-- C2 (amended): a read that returns zero bytes does not terminate
the proxy loop; the relay step performs an empty write followed by a
flush, consumes nothing, and the loop proceeds to the next wait;
successful termination arises only from a read-closed notification. -/
theorem zero_read_is_noop (s : LoopSt) (e : Event)
    (h1 : e.readClosed = false) :
    (e.token = STDIN → fill_buf s.stdin_hdl = .ok [] →
        processEvent s e =
          .cont { s with stdin_hdl := consume s.stdin_hdl 0,
                         pty_out := flushSink s.pty_out })
  ∧ (e.token = PTY_MASTER → fill_buf s.fpty_master = .ok [] →
        processEvent s e =
          .cont { s with fpty_master := consume s.fpty_master 0,
                         stdout_hdl := flushSink s.stdout_hdl })
  ∧ processEvent s e ≠ .terminated := by
  refine ⟨?_, ?_, ?_⟩
  · intro ht hf
    simp [processEvent, h1, ht, write_buffer_to, hf, fillLen, write_all,
      flushSink]
  · intro ht hf
    simp [processEvent, h1, ht, write_buffer_to, hf, fillLen, write_all,
      flushSink, STDIN, PTY_MASTER]
  · simp only [processEvent, h1]
    simp only [Bool.false_eq_true, if_false]
    split
    · split <;> simp
    · split
      · split <;> simp
      · simp

/-- C4: every multiplexer event that signals the read side has closed
makes the proxy loop return Ok at once, whichever identifier the event
carries, within the current wait cycle and without further input. -/
theorem read_closed_terminates (s s2 : LoopSt) (pre es : List Event)
    (e : Event) (batches : List (List Event))
    (h1 : e.readClosed = true) (h2 : processBatch s pre = .next s2) :
    (∀ (s3 : LoopSt) (t : Nat), processEvent s3 ⟨t, true⟩ = .terminated)
  ∧ processBatch s (pre ++ e :: es) = .done s2
  ∧ runLoop s ((pre ++ e :: es) :: batches) = .ok s2 := by
  have hb : processBatch s (pre ++ e :: es) = .done s2 := by
    rw [processBatch_next_append _ pre s s2 h2]
    simp [processBatch, processEvent, h1]
  refine ⟨fun s3 t => by simp [processEvent], hb, ?_⟩
  simp [runLoop, hb]

/-- C9: when a batch returned by one poll wait contains a read-closed
event, the loop returns success with exactly the state produced by the
events before it; the remaining events of the batch, whatever they
contain, are never serviced and leave no effect. -/
theorem first_read_closed_skips_rest (s s2 : LoopSt) (pre : List Event)
    (e : Event) (h1 : e.readClosed = true)
    (h2 : processBatch s pre = .next s2) :
    ∀ es : List Event, processBatch s (pre ++ e :: es) = .done s2 := by
  intro es
  rw [processBatch_next_append _ pre s s2 h2]
  simp [processBatch, processEvent, h1]

/-- C8: an event with an unrecognized identifier and no read-closed
signal hits the defensive abort, while under the loop invariant that
only the two registered identifiers occur, the aborting branch is
unreachable. -/
theorem unknown_token_panics (s : LoopSt) (e : Event)
    (h1 : e.readClosed = false) (h2 : e.token ≠ STDIN)
    (h3 : e.token ≠ PTY_MASTER) :
    processEvent s e = .panicked
  ∧ ∀ (s3 : LoopSt) (e3 : Event),
      e3.token = STDIN ∨ e3.token = PTY_MASTER →
      processEvent s3 e3 ≠ .panicked := by
  constructor
  · simp [processEvent, h1, h2, h3]
  · intro s3 e3 he3
    cases hrc : e3.readClosed with
    | true => simp [processEvent, hrc]
    | false =>
      rcases he3 with h | h
      · simp [processEvent, hrc, h]
        split <;> simp
      · simp [processEvent, hrc, h, STDIN, PTY_MASTER]
        split <;> simp

/-- C3: in one relay step, write_buffer_to writes exactly the bytes
read, in order, retrying raw writes until none are left (no partial
write escapes), consumes exactly that many bytes from the reader, and
flushes the destination; consequently, over any run of ready events,
the bytes delivered at standard input appear at the PTY master, and
the bytes from the PTY master appear at standard output, with no loss,
duplication, or reordering. -/
theorem relay_exact :
    (∀ (caps written buf r : List Nat),
        write_all caps written buf = .ok r → r = written ++ buf)
  ∧ (∀ (rdr : Handle) (f : Sink) (caps : List Nat) (rdr2 : Handle)
        (f2 : Sink), write_buffer_to rdr f caps = .ok (rdr2, f2) →
        ∃ buf, fill_buf rdr = .ok buf
          ∧ f2.out = f.out ++ f.pending ++ buf
          ∧ f2.pending = []
          ∧ rdr2 = consume rdr buf.length)
  ∧ (∀ (cs : List (List Nat)) (s : LoopSt),
        s.stdin_hdl = ⟨cs.map Except.ok⟩ → s.pty_out.pending = [] →
        runLoop s (cs.map fun _ => [⟨STDIN, false⟩]) =
          .pending { s with stdin_hdl := ⟨[]⟩,
                            pty_out := ⟨[], s.pty_out.out ++ cs.flatten⟩ })
  ∧ (∀ (cs : List (List Nat)) (s : LoopSt),
        s.fpty_master = ⟨cs.map Except.ok⟩ → s.stdout_hdl.pending = [] →
        runLoop s (cs.map fun _ => [⟨PTY_MASTER, false⟩]) =
          .pending { s with fpty_master := ⟨[]⟩,
                            stdout_hdl := ⟨[], s.stdout_hdl.out ++ cs.flatten⟩ }) :=
  ⟨fun caps written buf r h => write_all_ok_eq caps written buf r h,
   fun rdr f caps rdr2 f2 h => write_buffer_to_ok_spec rdr f caps rdr2 f2 h,
   fun cs s h1 h2 => runLoop_stdin_relay cs s h1 h2,
   fun cs s h1 h2 => runLoop_pty_relay cs s h1 h2⟩

/-- Witness for C3 at concrete inputs: relaying the chunks 104 101 108
and 108 111 from standard input delivers exactly 104 101 108 108 111,
in order, at the PTY master. -/
theorem relay_exact_witness :
    runLoop ⟨⟨[.ok [104, 101, 108], .ok [108, 111]]⟩, ⟨[]⟩, ⟨[], []⟩,
        ⟨[], []⟩⟩
      ([[104, 101, 108], [108, 111]].map fun _ => [⟨STDIN, false⟩]) =
      .pending ⟨⟨[]⟩, ⟨[]⟩, ⟨[], [104, 101, 108, 108, 111]⟩, ⟨[], []⟩⟩ := by
  have h := relay_exact.2.2.1 [[104, 101, 108], [108, 111]]
    ⟨⟨[.ok [104, 101, 108], .ok [108, 111]]⟩, ⟨[]⟩, ⟨[], []⟩, ⟨[], []⟩⟩
    rfl rfl
  simpa using h

/-- Witness for C2 (amended) at a concrete input: with nothing
readable, a standard-input event is a no-op continuation, not a
termination. -/
theorem zero_read_is_noop_witness :
    processEvent loopStEmpty ⟨STDIN, false⟩ = .cont loopStEmpty
  ∧ processEvent loopStEmpty ⟨STDIN, false⟩ ≠ .terminated := by
  have h := zero_read_is_noop loopStEmpty ⟨STDIN, false⟩ rfl
  exact ⟨by simpa [loopStEmpty, consume, flushSink] using h.1 rfl rfl, h.2.2⟩

/-- Witness for C4 at a concrete input: a read-closed event on the
PTY master identifier ends the loop with success in its wait cycle. -/
theorem read_closed_terminates_witness :
    runLoop loopStEmpty [[⟨PTY_MASTER, true⟩]] = .ok loopStEmpty :=
  (read_closed_terminates loopStEmpty loopStEmpty [] [] ⟨PTY_MASTER, true⟩
    [] rfl rfl).2.2

/-- A loop state with two chunks pending on the PTY master side. -/
def loopStData : LoopSt := ⟨⟨[]⟩, ⟨[.ok [1, 2]]⟩, ⟨[], []⟩, ⟨[], []⟩⟩

/-- Witness for C9 at a concrete input: a batch whose first event is
read-closed returns success at once and the following PTY-master event
with readable data pending is never serviced. -/
theorem first_read_closed_skips_rest_witness :
    processBatch loopStData ([] ++ ⟨STDIN, true⟩ :: [⟨PTY_MASTER, false⟩]) =
      .done loopStData :=
  first_read_closed_skips_rest loopStData loopStData [] ⟨STDIN, true⟩ rfl rfl
    [⟨PTY_MASTER, false⟩]

/-- Witness for C8 at a concrete input: token 5 aborts, token 0 does
not. -/
theorem unknown_token_panics_witness :
    processEvent loopStEmpty ⟨5, false⟩ = .panicked
  ∧ processEvent loopStEmpty ⟨STDIN, false⟩ ≠ .panicked := by
  have h := unknown_token_panics loopStEmpty ⟨5, false⟩ rfl (by decide)
    (by decide)
  exact ⟨h.1, h.2 loopStEmpty ⟨STDIN, false⟩ (Or.inl rfl)⟩

/-- C10: the stdin file-descriptor parameter of proxy_term is used
only in the registration table; the descriptor actually read on a
standard-input event is the process-global standard input, descriptor
0, so the data path agrees with the registered descriptor exactly when
the parameter is 0. -/
theorem stdin_param_registration_only (p d : Nat) :
    (proxy_term_wiring p d).registered = [(p, STDIN), (d, PTY_MASTER)]
  ∧ (proxy_term_wiring p d).stdinReadFd = GLOBAL_STDIN_FD
  ∧ ((proxy_term_wiring p d).stdinReadFd = p ↔ p = 0) :=
  ⟨rfl, rfl, by simp [proxy_term_wiring, GLOBAL_STDIN_FD, eq_comm]⟩

/-- Witness for C10 at a concrete input: with parameter 7 the loop
still reads descriptor 0, not 7. -/
theorem stdin_param_registration_only_witness :
    (proxy_term_wiring 7 9).stdinReadFd = 0
  ∧ ¬ (proxy_term_wiring 7 9).stdinReadFd = 7 :=
  ⟨(stdin_param_registration_only 7 9).2.1,
   fun h => by
     have h2 := (stdin_param_registration_only 7 9).2.2.mp h
     exact absurd h2 (by decide)⟩

/-- C7: restoring a captured snapshot twice in a row leaves the
terminal attribute store exactly as one restore does, and a fresh
capture after the double restore equals a fresh capture after a single
restore; the second restore changes nothing. -/
theorem restore_idempotent (s current : Termios) :
    restore s (restore s current) = restore s current
  ∧ capture (restore s (restore s current)) = capture (restore s current)
  ∧ capture (restore s current) = s :=
  ⟨rfl, rfl, rfl⟩

/-- C5: PTY allocation performs exactly the ordered steps open-master,
grant, unlock, resolve-path; a failing step stops the sequence, no
later call is made, and its error is the one returned; the slave path
is resolved and the pair built only after grant and unlock succeed. -/
theorem new_pty_ordered (env : PtyEnv) :
    (new_pty env).2 = ptyStepOrder.take (stepsRun env)
  ∧ (PtyStep.ptsname ∈ (new_pty env).2 →
      env.grantptRes = .ok () ∧ env.unlockptRes = .ok ())
  ∧ (∀ e : Err, env.openptRes = .error e →
      (new_pty env).1 = .error e ∧ (new_pty env).2 = [.openpt])
  ∧ (∀ (e : Err) (m : Nat), env.openptRes = .ok m →
      env.grantptRes = .error e →
      (new_pty env).1 = .error e ∧ PtyStep.unlockpt ∉ (new_pty env).2
        ∧ PtyStep.ptsname ∉ (new_pty env).2)
  ∧ (∀ (e : Err) (m : Nat), env.openptRes = .ok m →
      env.grantptRes = .ok () → env.unlockptRes = .error e →
      (new_pty env).1 = .error e ∧ PtyStep.ptsname ∉ (new_pty env).2)
  ∧ (∀ (e : Err) (m : Nat), env.openptRes = .ok m →
      env.grantptRes = .ok () → env.unlockptRes = .ok () →
      env.ptsnameRes = .error e → (new_pty env).1 = .error e)
  ∧ (∀ (m : Nat) (name : String), env.openptRes = .ok m →
      env.grantptRes = .ok () → env.unlockptRes = .ok () →
      env.ptsnameRes = .ok name →
      (new_pty env).1 = .ok ⟨m, name⟩ ∧ (new_pty env).2 = ptyStepOrder) := by
  obtain ⟨o, g, u, pn⟩ := env
  cases o <;> cases g <;> cases u <;> cases pn <;>
    refine ⟨rfl, ?_, ?_, ?_, ?_, ?_, ?_⟩ <;>
      intros <;> simp_all [new_pty, ptyStepOrder]

/-- Allocation oracle where the grant step fails with errno 13. -/
def ptyEnvGrantFail : PtyEnv := ⟨.ok 3, .error (.nix 13), .ok (), .ok "/dev/pts/1"⟩

/-- Witness for C5 at a concrete input: a failing grant surfaces its
own error and the unlock and path-resolution calls are never made. -/
theorem new_pty_ordered_witness :
    (new_pty ptyEnvGrantFail).1 = .error (.nix 13)
  ∧ PtyStep.unlockpt ∉ (new_pty ptyEnvGrantFail).2
  ∧ PtyStep.ptsname ∉ (new_pty ptyEnvGrantFail).2 := by
  have h := (new_pty_ordered ptyEnvGrantFail).2.2.2.1 (.nix 13) 3 rfl rfl
  exact ⟨h.1, h.2.1, h.2.2⟩

/-- C6: set_raw derives the raw configuration as a pure function of
the snapshot, whatever the apply outcome; the only attribute values
main ever writes are the derived raw configuration and the captured
snapshot itself; and the write after the proxy call, when reached, is
exactly the captured snapshot. -/
theorem snapshot_preserved (env : MainEnv) (s : Termios)
    (h : env.tcgetattrRes = .ok s) :
    (∀ (fd : Nat) (t : Termios) (r : Except Err Unit),
        (term_set_raw fd t r).1 = cfmakeraw t)
  ∧ (restoreWrites (main env).2 = [] ∨ restoreWrites (main env).2 = [s])
  ∧ (∀ t : Termios, MainCall.tcsetattrCall 0 t ∈ (main env).2 →
        t = cfmakeraw s ∨ t = s) := by
  refine ⟨fun fd t r => rfl, ?_, ?_⟩
  · simp only [main, h]
    cases hnp : (new_pty env.ptyEnv).1 with
    | error e => left; rfl
    | ok pair =>
      cases hr : env.rawSetRes with
      | error e => left; rfl
      | ok u1 =>
        cases hp : env.proxyRes with
        | error e => left; rfl
        | ok u2 =>
          cases hres : env.restoreRes with
          | error e => right; rfl
          | ok u3 => right; rfl
  · simp only [main, h]
    cases hnp : (new_pty env.ptyEnv).1 with
    | error e =>
      intro t ht
      simp [term_set_raw] at ht
    | ok pair =>
      cases hr : env.rawSetRes with
      | error e =>
        intro t ht
        simp [term_set_raw] at ht; tauto
      | ok u1 =>
        cases hp : env.proxyRes with
        | error e =>
          intro t ht
          simp [term_set_raw] at ht; tauto
        | ok u2 =>
          cases hres : env.restoreRes with
          | error e =>
            intro t ht
            simp [term_set_raw] at ht; tauto
          | ok u3 =>
            intro t ht
            simp [term_set_raw] at ht; tauto

/-- A concrete snapshot whose raw derivation differs from it. -/
def termios0 : Termios := ⟨1, 2, 3, 4⟩

/-- Allocation oracle where every step succeeds. -/
def ptyEnvOk : PtyEnv := ⟨.ok 3, .ok (), .ok (), .ok "/dev/pts/0"⟩

/-- Oracle under which every call of main succeeds. -/
def envOk : MainEnv := ⟨.ok termios0, ptyEnvOk, .ok (), .ok (), .ok ()⟩

/-- Oracle under which the proxy loop fails with an I/O error and
everything else succeeds. -/
def envProxyFail : MainEnv :=
  ⟨.ok termios0, ptyEnvOk, .ok (), .error (.io 5), .ok ()⟩

/-- Witness for C6 at a concrete input: on the all-success run the
attribute write after the proxy call is the captured snapshot. -/
theorem snapshot_preserved_witness :
    restoreWrites (main envOk).2 = []
  ∨ restoreWrites (main envOk).2 = [termios0] :=
  (snapshot_preserved envOk termios0 rfl).2.1

/-- C1 exhibit: when the proxy loop fails with an I/O error after raw
mode was set, main propagates the error and performs no attribute
write after the proxy call, so the saved snapshot is not reapplied on
that exit path; on the success path the restore write does happen. -/
theorem main_skips_restore_on_proxy_error :
    (main envProxyFail).1 = .error (.io 5)
  ∧ restoreWrites (main envProxyFail).2 = []
  ∧ MainCall.tcsetattrCall 0 termios0 ∉ (main envProxyFail).2
  ∧ MainCall.proxyCall 0 3 ∈ (main envProxyFail).2
  ∧ restoreWrites (main envOk).2 = [termios0] := by
  decide

end Ptyme
